import Mathlib

/-!
Shallow embedding of the Rust CLI password manager (`src/main.rs`) and proofs
about its specification claims.

Strings are modelled as lists of byte values (`List Nat`, each element < 256);
Unicode strings at the prompt are modelled as lists of scalar code points
together with an explicit UTF-8 encoder.  File contents are byte lists; the
file system is a map from path strings to optional byte lists.  Randomness
(nonces, Argon2 salts/digests) enters the model as explicit parameters, and
the external AES-256-GCM cipher is modelled by an interface structure
(`AEADSpec`) carrying the contract the `aes_gcm` crate documents: 32-byte
keys, 12-byte nonces, a 16-byte tag appended to the ciphertext, and
decryption inverting encryption under the same key and nonce.
-/

namespace PasswordVault

/-- A credential record, `PasswordEntry { name, username, password }` from the
source.  Each field holds the UTF-8 bytes of the corresponding Rust `String`. -/
structure PasswordEntry where
  name : List Nat
  username : List Nat
  password : List Nat
deriving DecidableEq

/-- The vault contents, `PasswordStore { entries: Vec<PasswordEntry> }`. -/
structure PasswordStore where
  entries : List PasswordEntry
deriving DecidableEq

/-! ### Record codec: `bincode::serialize` / `bincode::deserialize`

bincode 1.x with its default configuration writes every collection length as a
fixed 8-byte little-endian `u64`, and a struct as its fields in declaration
order with no header.  `PasswordStore` therefore serializes as the entry count
followed by each entry, and each entry as its three length-prefixed strings. -/

/-- Little-endian encoding of `n` into `w` bytes (low byte first). -/
def natToLE : Nat → Nat → List Nat
  | 0, _ => []
  | w + 1, n => n % 256 :: natToLE w (n / 256)

/-- Read a little-endian byte list back as a natural number. -/
def leToNat : List Nat → Nat
  | [] => 0
  | b :: bs => b + 256 * leToNat bs

/-- A bincode length-prefixed byte string: 8-byte LE length, then the bytes. -/
def serializeBytes (s : List Nat) : List Nat :=
  natToLE 8 s.length ++ s

/-- bincode encoding of one `PasswordEntry`: its three fields in order. -/
def serializeEntry (e : PasswordEntry) : List Nat :=
  serializeBytes e.name ++ serializeBytes e.username ++ serializeBytes e.password

/-- bincode encoding of a `PasswordStore`: entry count, then the entries. -/
def serializeStore (s : PasswordStore) : List Nat :=
  natToLE 8 s.entries.length ++ (s.entries.map serializeEntry).flatten

/-- Consume exactly `n` bytes from the front of `b`, failing on underrun. -/
def readBytes (n : Nat) (b : List Nat) : Option (List Nat × List Nat) :=
  if n ≤ b.length then some (b.take n, b.drop n) else none

/-- Read an 8-byte little-endian `u64`. -/
def readU64 (b : List Nat) : Option (Nat × List Nat) :=
  match readBytes 8 b with
  | some (x, r) => some (leToNat x, r)
  | none => none

/-- Read a length-prefixed byte string. -/
def readLenBytes (b : List Nat) : Option (List Nat × List Nat) :=
  match readU64 b with
  | some (n, r) => readBytes n r
  | none => none

/-- Decode one `PasswordEntry`. -/
def readEntry (b : List Nat) : Option (PasswordEntry × List Nat) :=
  match readLenBytes b with
  | some (nm, r1) =>
    match readLenBytes r1 with
    | some (un, r2) =>
      match readLenBytes r2 with
      | some (pw, r3) => some (⟨nm, un, pw⟩, r3)
      | none => none
    | none => none
  | none => none

/-- Decode `n` consecutive entries. -/
def readEntries : Nat → List Nat → Option (List PasswordEntry × List Nat)
  | 0, b => some ([], b)
  | n + 1, b =>
    match readEntry b with
    | some (e, r) =>
      match readEntries n r with
      | some (es, r2) => some (e :: es, r2)
      | none => none
    | none => none

/-- `bincode::deserialize::<PasswordStore>`: entry count then entries.
bincode 1.x `deserialize` tolerates trailing bytes, so the remainder is
discarded. -/
def deserializeStore (b : List Nat) : Option PasswordStore :=
  match readU64 b with
  | some (n, r) =>
    match readEntries n r with
    | some (es, _) => some ⟨es⟩
    | none => none
  | none => none

/-- Well-formedness of an entry: each field fits in a `u64` length prefix
(guaranteed for every Rust `String`, whose length is a 64-bit `usize`). -/
def entryWF (e : PasswordEntry) : Prop :=
  e.name.length < 2 ^ 64 ∧ e.username.length < 2 ^ 64 ∧ e.password.length < 2 ^ 64

/-- Well-formedness of a store: the entry count and every field length fit in
a `u64` (always true of the in-memory Rust value). -/
def storeWF (s : PasswordStore) : Prop :=
  s.entries.length < 2 ^ 64 ∧ ∀ e ∈ s.entries, entryWF e

instance (e : PasswordEntry) : Decidable (entryWF e) := by
  unfold entryWF; infer_instance

instance (s : PasswordStore) : Decidable (storeWF s) := by
  unfold storeWF; infer_instance

/-! ### The AEAD cipher interface

`src/main.rs` uses `Aes256Gcm` from the `aes_gcm` crate.  The cipher itself is
external code, so it is modelled by its documented contract: `enc` and `dec`
act on a 32-byte key, a 12-byte nonce and a byte string; the ciphertext is the
plaintext length plus a 16-byte tag; and decrypting a ciphertext with the key
and nonce that produced it returns exactly the original plaintext. -/

structure AEADSpec where
  enc : List Nat → List Nat → List Nat → List Nat
  dec : List Nat → List Nat → List Nat → Option (List Nat)
  enc_len : ∀ k n pt, (enc k n pt).length = pt.length + 16
  dec_enc : ∀ k n pt, k.length = 32 → n.length = 12 → dec k n (enc k n pt) = some pt

/-- The 16-byte authentication tag of the concrete AEAD instance below: a
function of the key and the nonce, so that decrypting under a key or nonce
other than the sealing ones is rejected, as the real cipher rejects it. -/
def toyTag (k n : List Nat) : List Nat :=
  ((k ++ n) ++ List.replicate 16 0).take 16

/-- A concrete instance of the AEAD interface used to evaluate the model on
closed inputs: the ciphertext is the plaintext followed by the 16-byte tag
derived from the key and nonce. -/
def toyEnc (k n pt : List Nat) : List Nat := pt ++ toyTag k n

/-- Decryption for the concrete instance: check the key/nonce-derived tag and
strip it; a mismatched tag (in particular a mismatched key) is rejected. -/
def toyDec (k n ct : List Nat) : Option (List Nat) :=
  if 16 ≤ ct.length ∧ ct.drop (ct.length - 16) = toyTag k n then
    some (ct.take (ct.length - 16))
  else none

theorem toyTag_length (k n : List Nat) : (toyTag k n).length = 16 := by
  simp only [toyTag, List.length_take, List.length_append,
    List.length_replicate]
  omega

def toyAEAD : AEADSpec where
  enc := toyEnc
  dec := toyDec
  enc_len := by
    intro k n pt
    simp [toyEnc, toyTag_length]
  dec_enc := by
    intro k n pt _ _
    have hlen : (pt ++ toyTag k n).length - 16 = pt.length := by
      simp [toyTag_length]
    have hc : 16 ≤ (pt ++ toyTag k n).length
        ∧ (pt ++ toyTag k n).drop ((pt ++ toyTag k n).length - 16)
          = toyTag k n := by
      refine ⟨?_, ?_⟩
      · simp [toyTag_length]
      · rw [hlen]
        exact List.drop_left' rfl
    unfold toyEnc toyDec
    rw [if_pos hc, hlen, List.take_left' rfl]

/-! ### Errors and outcomes -/

/-- The distinct failure modes `decrypt_store` / `encrypt_store` can surface
through `anyhow`: `Invalid key length` from `Aes256Gcm::new_from_slice`,
`Failed to decrypt data` from the AEAD open, a bincode deserialize error, and
an I/O error from `fs::read` on a missing file. -/
inductive VaultErr where
  | invalidKeyLength
  | decryptFailed
  | malformedRecords
  | fileNotFound
deriving DecidableEq

/-- Result of running a store operation.  `panic` records that the Rust code
would abort with a panic rather than return an error. -/
inductive RunOutcome where
  | ok (s : PasswordStore)
  | err (e : VaultErr)
  | panic
deriving DecidableEq

/-! ### The sealed container codec (`encrypt_store` / `decrypt_store`) -/

/-- `let (nonce, ciphertext) = encrypted_data.split_at(12)` for an input long
enough not to panic: the first 12 bytes and the rest. -/
def split_at12 (blob : List Nat) : List Nat × List Nat :=
  (blob.take 12, blob.drop 12)

/-- `encrypt_store(store, key)`: build the cipher from the raw `key` bytes
(`Aes256Gcm::new_from_slice` succeeds exactly when the slice is 32 bytes),
serialize the store with bincode, encrypt under the freshly drawn 12-byte
`nonce`, and return `nonce || ciphertext`.  No salt appears in the output. -/
def encrypt_store (a : AEADSpec) (store : PasswordStore) (key : List Nat)
    (nonce : List Nat) : Except VaultErr (List Nat) :=
  if key.length = 32 then
    Except.ok (nonce ++ a.enc key nonce (serializeStore store))
  else
    Except.error VaultErr.invalidKeyLength

/-- The body of `decrypt_store` once the file bytes are in hand: `split_at(12)`
(which panics when the input is shorter than 12 bytes), cipher construction
from the raw trimmed master-password bytes, AEAD decryption, bincode decode. -/
def decrypt_blob (a : AEADSpec) (pw : List Nat) (blob : List Nat) : RunOutcome :=
  if blob.length < 12 then RunOutcome.panic
  else if pw.length = 32 then
    match a.dec pw (split_at12 blob).1 (split_at12 blob).2 with
    | some pt =>
      match deserializeStore pt with
      | some s => RunOutcome.ok s
      | none => RunOutcome.err VaultErr.malformedRecords
    | none => RunOutcome.err VaultErr.decryptFailed
  else RunOutcome.err VaultErr.invalidKeyLength

/-- `decrypt_store(store_path)`: prompt for the master password (supplied here
as the byte list `pw`), `fs::read` the file, then `decrypt_blob`. -/
def decrypt_store (a : AEADSpec) (fs : String → Option (List Nat)) (p : String)
    (pw : List Nat) : RunOutcome :=
  match fs p with
  | none => RunOutcome.err VaultErr.fileNotFound
  | some blob => decrypt_blob a pw blob

/-! ### Vault store operations (`init_store`, `add_entry`) -/

/-- One observable file-system side effect. -/
inductive FsOp where
  | write (path : String) (data : List Nat)
  | rename (src dst : String)
deriving DecidableEq

/-- Result of a vault-store operation: its outcome, the file system after it,
and the trace of file-system operations it performed. -/
structure StoreRun where
  outcome : RunOutcome
  fs : String → Option (List Nat)
  trace : List FsOp

/-- `init_store(store_path)`: prompt for a master password, generate an Argon2
salt, hash the password (the resulting 32-byte digest enters the model as
`argonKey`), seal an empty store under that digest, and `fs::write` the blob
to `store_path` — unconditionally, with no check whether the path is already
occupied. -/
def init_store (a : AEADSpec) (fs : String → Option (List Nat)) (p : String)
    (argonKey : List Nat) (nonce : List Nat) : StoreRun :=
  match encrypt_store a ⟨[]⟩ argonKey nonce with
  | Except.ok blob =>
    ⟨RunOutcome.ok ⟨[]⟩, fun q => if q = p then some blob else fs q,
      [FsOp.write p blob]⟩
  | Except.error e => ⟨RunOutcome.err e, fs, []⟩

/-- `add_entry(store_path, name, username, password)`: decrypt the store (the
first password prompt supplies `pw1`), push the new entry, prompt again (the
second prompt supplies `pw2`), re-encrypt under the raw bytes of `pw2` with a
fresh `nonce`, and `fs::write` the result straight back to `store_path`. -/
def add_entry (a : AEADSpec) (fs : String → Option (List Nat)) (p : String)
    (pw1 pw2 : List Nat) (nonce : List Nat) (e : PasswordEntry) : StoreRun :=
  match fs p with
  | none => ⟨RunOutcome.err VaultErr.fileNotFound, fs, []⟩
  | some blob =>
    match decrypt_blob a pw1 blob with
    | RunOutcome.ok s =>
      match encrypt_store a ⟨s.entries ++ [e]⟩ pw2 nonce with
      | Except.ok blob2 =>
        ⟨RunOutcome.ok ⟨s.entries ++ [e]⟩,
          fun q => if q = p then some blob2 else fs q, [FsOp.write p blob2]⟩
      | Except.error er => ⟨RunOutcome.err er, fs, []⟩
    | RunOutcome.err er => ⟨RunOutcome.err er, fs, []⟩
    | RunOutcome.panic => ⟨RunOutcome.panic, fs, []⟩

/-! ### The password prompt (`get_password`)

`get_password` reads one line from stdin and returns `line.trim()`.  Rust's
`str::trim` strips characters with the Unicode `White_Space` property from
both ends.  Prompt input is modelled as a list of Unicode scalar values. -/

/-- Rust's `char::is_whitespace`: the Unicode `White_Space` property. -/
def isRustWhitespace (c : Nat) : Bool :=
  c = 0x9 || c = 0xA || c = 0xB || c = 0xC || c = 0xD || c = 0x20 ||
  c = 0x85 || c = 0xA0 || c = 0x1680 || (0x2000 ≤ c && c ≤ 0x200A) ||
  c = 0x2028 || c = 0x2029 || c = 0x202F || c = 0x205F || c = 0x3000

/-- `str::trim_start`. -/
def trimStart (s : List Nat) : List Nat :=
  s.dropWhile isRustWhitespace

/-- `str::trim_end`. -/
def trimEnd (s : List Nat) : List Nat :=
  (s.reverse.dropWhile isRustWhitespace).reverse

/-- `str::trim`: whitespace stripped from both ends. -/
def rustTrim (s : List Nat) : List Nat :=
  trimEnd (trimStart s)

/-- `get_password`: read a line (the parameter) and return it trimmed. -/
def get_password (line : List Nat) : List Nat :=
  rustTrim line

/-- UTF-8 encoding of one Unicode scalar value. -/
def utf8EncodeChar (c : Nat) : List Nat :=
  if c < 0x80 then [c]
  else if c < 0x800 then [0xC0 + c / 64, 0x80 + c % 64]
  else if c < 0x10000 then
    [0xE0 + c / 4096, 0x80 + (c / 64) % 64, 0x80 + c % 64]
  else
    [0xF0 + c / 262144, 0x80 + (c / 4096) % 64, 0x80 + (c / 64) % 64,
      0x80 + c % 64]

/-- UTF-8 encoding of a string of scalar values, as produced by
`String::as_bytes` on the prompt result. -/
def utf8Encode (s : List Nat) : List Nat :=
  (s.map utf8EncodeChar).flatten

/-! ### Spec-side definitions (for comparison with the source)

These two definitions follow the specification's words, not the source; they
exist only to be compared against the source-derived functions above. -/

/-- The on-disk layout the specification describes:
`salt (16 bytes) || nonce (12 bytes) || ciphertext with 16-byte tag`. -/
def specSealedLayout (salt nonce ctTag : List Nat) : List Nat :=
  salt ++ nonce ++ ctTag

/-- The nonce the specification says `open` extracts: the 12 bytes following
a 16-byte salt. -/
def specOpenNonce (blob : List Nat) : List Nat :=
  (blob.drop 16).take 12

/-- The atomic-persist discipline the specification describes: write the blob
to a temporary file, then rename it over the target path. -/
def specAtomicPersist (p : String) (t : List FsOp) : Prop :=
  ∃ tmp blob, tmp ≠ p ∧ t = [FsOp.write tmp blob, FsOp.rename tmp p]

/-! ### Concrete inputs used to evaluate the model -/

/-- A concrete vault path. -/
def vaultPath : String := "/tmp/v"

/-- A concrete 32-byte key (standing for an Argon2 digest). -/
def key32 : List Nat := List.replicate 32 7

/-- A concrete 12-byte nonce. -/
def nonce12 : List Nat := List.replicate 12 0

/-- The UTF-8 bytes of the master secret "hunter2" (7 bytes). -/
def hunter2 : List Nat := [104, 117, 110, 116, 101, 114, 50]

/-- A concrete 32-byte password (32 copies of the letter a). -/
def pw32 : List Nat := List.replicate 32 97

/-- A file system holding, at the vault path, an empty store sealed under the
password `pw32` itself, so that entering `pw32` at the prompt decrypts it by
the cipher's own round-trip contract (matched key and nonce). -/
def sealedFs : String → Option (List Nat) :=
  fun q =>
    if q = vaultPath then
      some (nonce12 ++ toyAEAD.enc pw32 nonce12 (serializeStore ⟨[]⟩))
    else none

/-- A concrete credential record. -/
def sampleEntry : PasswordEntry := ⟨[103, 105, 116], [97, 108], [112, 64]⟩

/-- A concrete successful `add_entry` run against the `pw32`-sealed vault,
entering `pw32` at both password prompts. -/
def addRun : StoreRun :=
  add_entry toyAEAD sealedFs vaultPath pw32 pw32 (List.replicate 12 1)
    sampleEntry

/-- A blob sealed under `pw32` whose plaintext (the single byte 5) fails
bincode decoding. -/
def malformedBlob : List Nat :=
  nonce12 ++ toyAEAD.enc pw32 nonce12 [5]

/-! ### Codec round-trip lemmas -/

theorem natToLE_length (w n : Nat) : (natToLE w n).length = w := by
  induction w generalizing n with
  | zero => rfl
  | succ w ih => simp [natToLE, ih]

theorem leToNat_natToLE (w n : Nat) : leToNat (natToLE w n) = n % 256 ^ w := by
  induction w generalizing n with
  | zero => simp [natToLE, leToNat, Nat.mod_one]
  | succ w ih =>
    rw [natToLE, leToNat, ih, pow_succ']
    exact (Nat.mod_mul).symm

theorem leToNat_natToLE_of_lt {w n : Nat} (h : n < 256 ^ w) :
    leToNat (natToLE w n) = n := by
  rw [leToNat_natToLE, Nat.mod_eq_of_lt h]

theorem readBytes_of_length (n : Nat) (s r : List Nat) (h : s.length = n) :
    readBytes n (s ++ r) = some (s, r) := by
  subst h
  simp [readBytes, List.take_left, List.drop_left]

theorem readU64_append {n : Nat} (r : List Nat) (h : n < 2 ^ 64) :
    readU64 (natToLE 8 n ++ r) = some (n, r) := by
  have h256 : n < 256 ^ 8 := by
    have : (256 : Nat) ^ 8 = 2 ^ 64 := by norm_num
    omega
  unfold readU64
  rw [readBytes_of_length 8 (natToLE 8 n) r (natToLE_length 8 n)]
  simp [leToNat_natToLE_of_lt h256]

theorem readLenBytes_append {s : List Nat} (r : List Nat)
    (h : s.length < 2 ^ 64) :
    readLenBytes (serializeBytes s ++ r) = some (s, r) := by
  unfold readLenBytes serializeBytes
  rw [List.append_assoc, readU64_append (s ++ r) h]
  exact readBytes_of_length s.length s r rfl

theorem readEntry_append {e : PasswordEntry} (r : List Nat) (h : entryWF e) :
    readEntry (serializeEntry e ++ r) = some (e, r) := by
  obtain ⟨h1, h2, h3⟩ := h
  simp only [readEntry, serializeEntry, List.append_assoc,
    readLenBytes_append _ h1, readLenBytes_append _ h2,
    readLenBytes_append _ h3]

theorem readEntries_append (es : List PasswordEntry) (r : List Nat)
    (h : ∀ e ∈ es, entryWF e) :
    readEntries es.length ((es.map serializeEntry).flatten ++ r) = some (es, r) := by
  induction es with
  | nil => simp [readEntries]
  | cons e es ih =>
    have he : entryWF e := h e (by simp)
    have hes : ∀ x ∈ es, entryWF x := fun x hx => h x (by simp [hx])
    simp only [List.map_cons, List.flatten_cons, List.length_cons,
      List.append_assoc, readEntries, readEntry_append _ he, ih hes]

theorem deserializeStore_serializeStore (s : PasswordStore) (h : storeWF s) :
    deserializeStore (serializeStore s) = some s := by
  obtain ⟨hlen, hent⟩ := h
  have hre := readEntries_append s.entries [] hent
  rw [List.append_nil] at hre
  simp only [deserializeStore, serializeStore, readU64_append _ hlen, hre]

/-! ### Sealed-container helper lemmas -/

theorem split_at12_append {n : List Nat} (ct : List Nat) (hn : n.length = 12) :
    split_at12 (n ++ ct) = (n, ct) := by
  simp [split_at12, List.take_left' hn, List.drop_left' hn]

theorem encrypt_store_of_len32 (a : AEADSpec) (st : PasswordStore)
    {key : List Nat} (nonce : List Nat) (hk : key.length = 32) :
    encrypt_store a st key nonce
      = Except.ok (nonce ++ a.enc key nonce (serializeStore st)) := by
  simp [encrypt_store, hk]

/-! ### Whitespace-trimming lemmas -/

theorem dropWhile_append_of_forall (p : Nat → Bool) (pre l : List Nat)
    (h : ∀ c ∈ pre, p c = true) :
    (pre ++ l).dropWhile p = l.dropWhile p := by
  induction pre with
  | nil => simp
  | cons c cs ih =>
    simp only [List.cons_append, List.dropWhile_cons, h c (by simp), if_true]
    exact ih (fun x hx => h x (by simp [hx]))

theorem dropWhile_append_of_ne_nil (p : Nat → Bool) (a b : List Nat)
    (h : a.dropWhile p ≠ []) :
    (a ++ b).dropWhile p = a.dropWhile p ++ b := by
  induction a with
  | nil => simp at h
  | cons c cs ih =>
    by_cases hc : p c
    · simp only [List.dropWhile_cons, hc, if_true] at h
      simp only [List.cons_append, List.dropWhile_cons, hc, if_true]
      exact ih h
    · simp [List.dropWhile_cons, hc]

theorem trimEnd_append (l post : List Nat)
    (h : ∀ c ∈ post, isRustWhitespace c = true) :
    trimEnd (l ++ post) = trimEnd l := by
  unfold trimEnd
  rw [List.reverse_append,
    dropWhile_append_of_forall _ _ _
      (fun c hc => h c (List.mem_reverse.mp hc))]

/-! ### The claims -/

/-- Claim C1: after a successful `init(p, s)`, a subsequent `open(p, s)` with
the same master secret succeeds and yields an empty record sequence.  The code
refutes this: `init_store` keys the cipher with the 32-byte Argon2 digest of
the secret, while `decrypt_store` keys it with the raw trimmed secret bytes.
With master secret "hunter2" (7 bytes), init succeeds but the subsequent open
fails with the invalid-key-length error instead of returning the empty store,
so the vault written by init can never be opened by the program itself. -/
theorem c1_init_then_open_fails_on_code :
    (init_store toyAEAD (fun _ => none) vaultPath key32 nonce12).outcome
      = RunOutcome.ok ⟨[]⟩
    ∧ decrypt_store toyAEAD
        (init_store toyAEAD (fun _ => none) vaultPath key32 nonce12).fs
        vaultPath (utf8Encode (get_password hunter2))
      = RunOutcome.err VaultErr.invalidKeyLength := by
  constructor
  · decide
  · decide

/-- Claim C2 counterexample: the sealed blob is NOT
`salt (16) || nonce (12) || ciphertext+tag`.  `encrypt_store` of the empty
store produces a 36-byte blob, too short to contain a 16-byte salt, a 12-byte
nonce and a 16-byte tag (which needs at least 44 bytes); and on a concrete
36-byte blob the nonce `decrypt_store` actually uses (bytes 0..11) differs
from the nonce the spec layout designates (bytes 16..27). -/
theorem c2_layout_counterexample :
    (encrypt_store toyAEAD ⟨[]⟩ key32 nonce12
      = Except.ok (nonce12 ++ toyEnc key32 nonce12 (serializeStore ⟨[]⟩)))
    ∧ (¬ ∃ salt nonce ctTag, salt.length = 16 ∧ nonce.length = 12 ∧
        16 ≤ ctTag.length ∧
        nonce12 ++ toyEnc key32 nonce12 (serializeStore ⟨[]⟩)
          = specSealedLayout salt nonce ctTag)
    ∧ (split_at12 (List.range 36)).1 ≠ specOpenNonce (List.range 36) := by
  refine ⟨rfl, ?_, by decide⟩
  rintro ⟨salt, nonce, ctTag, h16, h12, hct, heq⟩
  have hlen : (nonce12 ++ toyEnc key32 nonce12 (serializeStore ⟨[]⟩)).length
      = 36 := by decide
  have := congrArg List.length heq
  rw [hlen] at this
  simp only [specSealedLayout, List.length_append, h16, h12] at this
  omega

/-- Claim C2 (amended): the sealed blob is `nonce (12 bytes) || ciphertext
with 16-byte tag` — no salt is stored anywhere in the file — and `open`
splits the blob into its first 12 bytes as the nonce and the remainder as the
ciphertext. -/
theorem c2_amended_layout (a : AEADSpec) (key nonce ct : List Nat)
    (st : PasswordStore) (hk : key.length = 32) (hn : nonce.length = 12) :
    encrypt_store a st key nonce
      = Except.ok (nonce ++ a.enc key nonce (serializeStore st))
    ∧ split_at12 (nonce ++ ct) = (nonce, ct) :=
  ⟨encrypt_store_of_len32 a st nonce hk, split_at12_append ct hn⟩

/-- Claim C2 amended witness: the layout equations evaluated on concrete
inputs. -/
theorem c2_amended_layout_witness :
    encrypt_store toyAEAD ⟨[]⟩ key32 nonce12
      = Except.ok (nonce12 ++ toyAEAD.enc key32 nonce12 (serializeStore ⟨[]⟩))
    ∧ split_at12 (nonce12 ++ [1, 2]) = (nonce12, [1, 2]) :=
  c2_amended_layout toyAEAD key32 nonce12 [1, 2] ⟨[]⟩ (by decide) (by decide)

/-- Claim C3: `open` is total and fails closed on truncated input.  The code
refutes this: `encrypted_data.split_at(12)` panics whenever the file is
shorter than 12 bytes (here: the empty file and an 11-byte file), instead of
producing the `AuthenticationFailed` error outcome the claim requires. -/
theorem c3_truncated_input_panics :
    decrypt_blob toyAEAD pw32 [] = RunOutcome.panic
    ∧ decrypt_blob toyAEAD pw32 (List.replicate 11 0) = RunOutcome.panic
    ∧ RunOutcome.panic ≠ RunOutcome.err VaultErr.decryptFailed := by
  refine ⟨by decide, by decide, by decide⟩

/-- Claim C4: sealing the encoding of any store under any 32-byte key and
opening it with the same key returns exactly the encoding, and decoding the
encoding returns the store: `open(seal(encode(v), k), k) = encode(v)` (at the
byte level, through the exact split `decrypt_store` performs) and
`decode(encode(v)) = v`. -/
theorem c4_seal_open_encode_roundtrip (a : AEADSpec) (k n : List Nat)
    (v : PasswordStore) (hk : k.length = 32) (hn : n.length = 12)
    (hv : storeWF v) :
    encrypt_store a v k n = Except.ok (n ++ a.enc k n (serializeStore v))
    ∧ a.dec k (split_at12 (n ++ a.enc k n (serializeStore v))).1
        (split_at12 (n ++ a.enc k n (serializeStore v))).2
      = some (serializeStore v)
    ∧ deserializeStore (serializeStore v) = some v := by
  refine ⟨encrypt_store_of_len32 a v n hk, ?_,
    deserializeStore_serializeStore v hv⟩
  rw [split_at12_append _ hn]
  exact a.dec_enc k n _ hk hn

/-- Claim C4 witness: the round trip evaluated on a concrete one-entry
store. -/
theorem c4_seal_open_encode_roundtrip_witness :
    encrypt_store toyAEAD ⟨[sampleEntry]⟩ key32 nonce12
      = Except.ok
          (nonce12 ++ toyAEAD.enc key32 nonce12 (serializeStore ⟨[sampleEntry]⟩))
    ∧ toyAEAD.dec key32
        (split_at12
          (nonce12 ++ toyAEAD.enc key32 nonce12 (serializeStore ⟨[sampleEntry]⟩))).1
        (split_at12
          (nonce12 ++ toyAEAD.enc key32 nonce12 (serializeStore ⟨[sampleEntry]⟩))).2
      = some (serializeStore ⟨[sampleEntry]⟩)
    ∧ deserializeStore (serializeStore ⟨[sampleEntry]⟩) = some ⟨[sampleEntry]⟩ :=
  c4_seal_open_encode_roundtrip toyAEAD key32 nonce12 ⟨[sampleEntry]⟩
    (by decide) (by decide) (by decide)

/-- Claim C5 counterexample: with a file already present at the vault path,
`init_store` does not fail with `AlreadyExists`; it succeeds and replaces the
existing file content. -/
theorem c5_init_overwrites_counterexample :
    (init_store toyAEAD
        (fun q => if q = vaultPath then some [1, 2, 3] else none)
        vaultPath key32 nonce12).outcome = RunOutcome.ok ⟨[]⟩
    ∧ (init_store toyAEAD
        (fun q => if q = vaultPath then some [1, 2, 3] else none)
        vaultPath key32 nonce12).fs vaultPath ≠ some [1, 2, 3] := by
  refine ⟨by decide, by decide⟩

/-- Claim C5 (amended): `init_store` performs no occupancy check at all: for
every file system, whether or not the path is occupied, it succeeds and
unconditionally writes the fresh sealed empty vault over the target path. -/
theorem c5_amended_init_unconditional (a : AEADSpec)
    (fs : String → Option (List Nat)) (p : String) (argonKey nonce : List Nat)
    (hk : argonKey.length = 32) :
    (init_store a fs p argonKey nonce).outcome = RunOutcome.ok ⟨[]⟩
    ∧ (init_store a fs p argonKey nonce).fs p
      = some (nonce ++ a.enc argonKey nonce (serializeStore ⟨[]⟩)) := by
  simp [init_store, encrypt_store_of_len32 a ⟨[]⟩ nonce hk]

/-- Claim C5 amended witness: init evaluated on an occupied file system. -/
theorem c5_amended_init_unconditional_witness :
    (init_store toyAEAD
        (fun q => if q = vaultPath then some [9, 9] else none)
        vaultPath key32 nonce12).outcome = RunOutcome.ok ⟨[]⟩
    ∧ (init_store toyAEAD
        (fun q => if q = vaultPath then some [9, 9] else none)
        vaultPath key32 nonce12).fs vaultPath
      = some (nonce12 ++ toyAEAD.enc key32 nonce12 (serializeStore ⟨[]⟩)) :=
  c5_amended_init_unconditional toyAEAD
    (fun q => if q = vaultPath then some [9, 9] else none)
    vaultPath key32 nonce12 (by decide)

/-- Claim C6 counterexample: a successful persist (here the re-seal performed
by `add_entry` on a vault sealed under the entered password, so its
decryption succeeds by the cipher's round-trip contract) does not write a
temporary file and rename it over the target: its file-system trace is a
single operation, whereas the claimed temp-file-plus-rename discipline always
takes two. -/
theorem c6_no_atomic_rename_counterexample :
    addRun.trace.length = 1 ∧ ¬ specAtomicPersist vaultPath addRun.trace := by
  have h1 : addRun.trace.length = 1 := by decide
  refine ⟨h1, ?_⟩
  rintro ⟨tmp, blob, -, heq⟩
  have h2 := congrArg List.length heq
  rw [h1] at h2
  simp at h2

/-- Claim C6 (amended): every persist — the write in `init_store` and the
rewrite in `add_entry` — is a single direct `fs::write` of the sealed blob to
the target path itself; no temporary file is created and no rename happens,
so a crash mid-write can leave the vault file half-written. -/
theorem c6_amended_direct_write (a : AEADSpec)
    (fs : String → Option (List Nat)) (p : String)
    (argonKey nonce pw1 pw2 blob : List Nat) (e : PasswordEntry)
    (s : PasswordStore) (hk : argonKey.length = 32) (hfs : fs p = some blob)
    (hdec : decrypt_blob a pw1 blob = RunOutcome.ok s)
    (hpw2 : pw2.length = 32) :
    (init_store a fs p argonKey nonce).trace
      = [FsOp.write p (nonce ++ a.enc argonKey nonce (serializeStore ⟨[]⟩))]
    ∧ (add_entry a fs p pw1 pw2 nonce e).trace
      = [FsOp.write p
          (nonce ++ a.enc pw2 nonce (serializeStore ⟨s.entries ++ [e]⟩))] := by
  constructor
  · simp [init_store, encrypt_store_of_len32 a ⟨[]⟩ nonce hk]
  · simp [add_entry, hfs, hdec,
      encrypt_store_of_len32 a ⟨s.entries ++ [e]⟩ nonce hpw2]

/-- Claim C6 amended witness: the traces of a concrete init and a concrete
add against the `pw32`-sealed vault, with the decrypting password matching
the sealing key. -/
theorem c6_amended_direct_write_witness :
    (init_store toyAEAD sealedFs vaultPath key32 nonce12).trace
      = [FsOp.write vaultPath
          (nonce12 ++ toyAEAD.enc key32 nonce12 (serializeStore ⟨[]⟩))]
    ∧ (add_entry toyAEAD sealedFs vaultPath pw32 pw32 nonce12
        sampleEntry).trace
      = [FsOp.write vaultPath
          (nonce12 ++ toyAEAD.enc pw32 nonce12
            (serializeStore ⟨[sampleEntry]⟩))] :=
  c6_amended_direct_write toyAEAD sealedFs vaultPath key32 nonce12
    pw32 pw32
    (nonce12 ++ toyAEAD.enc pw32 nonce12 (serializeStore ⟨[]⟩))
    sampleEntry ⟨[]⟩ (by decide) (by decide) (by decide) (by decide)

/-- Claim C7 counterexample: `add_entry` does not leave the on-disk blob
unchanged: on a concrete vault sealed under the entered password itself (so
the decryption succeeds by the cipher's round-trip contract), it succeeds,
changes the stored bytes at the vault path, and performs a file-system write
of its own. -/
theorem c7_add_persists_counterexample :
    addRun.outcome = RunOutcome.ok ⟨[sampleEntry]⟩
    ∧ addRun.fs vaultPath ≠ sealedFs vaultPath
    ∧ addRun.trace ≠ [] := by
  refine ⟨by decide, by decide, by decide⟩

/-- Claim C7 (amended): `add_entry` appends the record to the in-memory
contents AND itself persists: it immediately re-encrypts the grown store
under the re-prompted password and writes the new blob to the vault path;
there is no separate caller-driven persist step. -/
theorem c7_amended_add_appends_and_persists (a : AEADSpec)
    (fs : String → Option (List Nat)) (p : String)
    (pw1 pw2 nonce blob : List Nat) (e : PasswordEntry) (s : PasswordStore)
    (hfs : fs p = some blob) (hdec : decrypt_blob a pw1 blob = RunOutcome.ok s)
    (hpw2 : pw2.length = 32) :
    (add_entry a fs p pw1 pw2 nonce e).outcome
      = RunOutcome.ok ⟨s.entries ++ [e]⟩
    ∧ (add_entry a fs p pw1 pw2 nonce e).fs p
      = some (nonce ++ a.enc pw2 nonce (serializeStore ⟨s.entries ++ [e]⟩)) := by
  simp [add_entry, hfs, hdec,
    encrypt_store_of_len32 a ⟨s.entries ++ [e]⟩ nonce hpw2]

/-- Claim C7 amended witness: a concrete add run against the `pw32`-sealed
vault appends the entry and rewrites the vault file. -/
theorem c7_amended_add_appends_and_persists_witness :
    (add_entry toyAEAD sealedFs vaultPath pw32 pw32 nonce12
        sampleEntry).outcome = RunOutcome.ok ⟨[sampleEntry]⟩
    ∧ (add_entry toyAEAD sealedFs vaultPath pw32 pw32 nonce12
        sampleEntry).fs vaultPath
      = some (nonce12 ++ toyAEAD.enc pw32 nonce12
          (serializeStore ⟨[sampleEntry]⟩)) :=
  c7_amended_add_appends_and_persists toyAEAD sealedFs vaultPath
    pw32 pw32 nonce12
    (nonce12 ++ toyAEAD.enc pw32 nonce12 (serializeStore ⟨[]⟩))
    sampleEntry ⟨[]⟩ (by decide) (by decide) (by decide)

/-- Claim C8: the decryption failure and the decode failure are distinct
error outcomes, and the decode failure (`MalformedRecords`) is reachable only
after the AEAD decryption has succeeded: whenever `decrypt_store`'s body
returns it, the cipher's open on the split nonce and ciphertext returned some
plaintext, and only the bincode decode of that plaintext failed. -/
theorem c8_malformed_only_after_auth (a : AEADSpec) (pw blob : List Nat)
    (h : decrypt_blob a pw blob = RunOutcome.err VaultErr.malformedRecords) :
    (12 ≤ blob.length ∧ pw.length = 32
      ∧ ∃ pt, a.dec pw (split_at12 blob).1 (split_at12 blob).2 = some pt
          ∧ deserializeStore pt = none)
    ∧ VaultErr.malformedRecords ≠ VaultErr.decryptFailed := by
  refine ⟨?_, by decide⟩
  unfold decrypt_blob at h
  split at h
  · simp at h
  · rename_i h12
    split at h
    · rename_i hpw
      refine ⟨by omega, hpw, ?_⟩
      split at h
      · rename_i pt heq
        split at h
        · simp at h
        · rename_i hds
          exact ⟨pt, heq, hds⟩
      · simp at h
    · simp at h

/-- Claim C8 witness: a concrete blob whose plaintext decrypts but fails to
decode. -/
theorem c8_malformed_only_after_auth_witness :
    (12 ≤ malformedBlob.length ∧ pw32.length = 32
      ∧ ∃ pt, toyAEAD.dec pw32 (split_at12 malformedBlob).1
            (split_at12 malformedBlob).2 = some pt
          ∧ deserializeStore pt = none)
    ∧ VaultErr.malformedRecords ≠ VaultErr.decryptFailed :=
  c8_malformed_only_after_auth toyAEAD pw32 malformedBlob (by decide)

/-- Claim C9: the decrypt path and the re-encrypt path both construct the
cipher from the raw bytes of the trimmed prompt line, and get past cipher
construction exactly when those bytes number 32; any other length yields the
invalid-key-length error (for a non-panicking input, i.e. at least 12 bytes
on the decrypt path) before any decryption or encryption is attempted. -/
theorem c9_key_length_gate (a : AEADSpec) (line blob nonce : List Nat)
    (st : PasswordStore) (hb : 12 ≤ blob.length) :
    (decrypt_blob a (utf8Encode (get_password line)) blob
        = RunOutcome.err VaultErr.invalidKeyLength
      ↔ (utf8Encode (get_password line)).length ≠ 32)
    ∧ (encrypt_store a st (utf8Encode (get_password line)) nonce
        = Except.error VaultErr.invalidKeyLength
      ↔ (utf8Encode (get_password line)).length ≠ 32) := by
  constructor
  · unfold decrypt_blob
    rw [if_neg (by omega)]
    by_cases hpw : (utf8Encode (get_password line)).length = 32
    · rw [if_pos hpw]
      refine iff_of_false ?_ (fun hne => hne hpw)
      intro hcontra
      split at hcontra
      · split at hcontra
        · simp at hcontra
        · simp at hcontra
      · simp at hcontra
    · rw [if_neg hpw]
      exact iff_of_true rfl hpw
  · unfold encrypt_store
    by_cases hpw : (utf8Encode (get_password line)).length = 32
    · rw [if_pos hpw]
      exact iff_of_false (by simp) (fun hne => hne hpw)
    · rw [if_neg hpw]
      exact iff_of_true rfl hpw

/-- Claim C9 witness: a prompt line of 32 letters followed by a newline trims
to exactly 32 bytes of key material. -/
theorem c9_key_length_gate_witness :
    (decrypt_blob toyAEAD
        (utf8Encode (get_password (List.replicate 32 97 ++ [10])))
        (List.replicate 12 0)
        = RunOutcome.err VaultErr.invalidKeyLength
      ↔ (utf8Encode (get_password (List.replicate 32 97 ++ [10]))).length ≠ 32)
    ∧ (encrypt_store toyAEAD ⟨[]⟩
        (utf8Encode (get_password (List.replicate 32 97 ++ [10]))) nonce12
        = Except.error VaultErr.invalidKeyLength
      ↔ (utf8Encode (get_password (List.replicate 32 97 ++ [10]))).length
          ≠ 32) :=
  c9_key_length_gate toyAEAD (List.replicate 32 97 ++ [10])
    (List.replicate 12 0) nonce12 ⟨[]⟩ (by decide)

/-- Claim C10: `get_password` strips leading and trailing whitespace
(the trailing newline included, since the newline is whitespace), so prompt
lines differing only in surrounding whitespace produce identical secrets. -/
theorem c10_trim_surrounding_whitespace (pre core post : List Nat)
    (hpre : ∀ c ∈ pre, isRustWhitespace c = true)
    (hpost : ∀ c ∈ post, isRustWhitespace c = true) :
    get_password (pre ++ core ++ post) = get_password core
    ∧ isRustWhitespace 10 = true := by
  refine ⟨?_, by decide⟩
  unfold get_password rustTrim trimStart
  rw [List.append_assoc, dropWhile_append_of_forall _ pre _ hpre]
  by_cases hc : core.dropWhile isRustWhitespace = []
  · rw [dropWhile_append_of_forall _ core _
      (List.dropWhile_eq_nil_iff.mp hc), hc,
      List.dropWhile_eq_nil_iff.mpr hpost]
  · rw [dropWhile_append_of_ne_nil _ _ _ hc, trimEnd_append _ _ hpost]

/-- Claim C10 witness: a line framed by a space, a tab and a trailing newline
trims to the same secret as the bare line. -/
theorem c10_trim_surrounding_whitespace_witness :
    get_password ([32, 9] ++ hunter2 ++ [10]) = get_password hunter2
    ∧ isRustWhitespace 10 = true :=
  c10_trim_surrounding_whitespace [32, 9] hunter2 [10] (by decide) (by decide)

end PasswordVault
